import Mathlib

/- Verification of the FormPilot field-to-input matching and autofill engine.
   The definitions below are shallow embeddings of the TypeScript sources:
   the store decision policy (generateMappings, calculateSemanticSimilarity,
   updateFieldValue), the content-page similarity (calculateSimilarity,
   calculateFuzzySimilarity, levenshteinDistance), the background profile
   import/export (isValidMappingProfile, importMappingProfiles), and the two
   fill executors (FormFiller.fill / FormFiller.fillField and
   ContentScript.fillFields).  Confidences and scores are rationals; DOM
   documents are explicit lists of elements keyed by their selector; the
   stateful loops become explicit state passing. -/

namespace FormPilot

/-- ASCII lower-casing of one character, as JavaScript toLowerCase acts on the
ASCII range (every string in this development is ASCII). -/
def jsLowerChar (c : Char) : Char := c.toLower

/-- Lower-casing over the character list of a string. -/
def jsLower (s : List Char) : List Char := s.map jsLowerChar

/-- JavaScript str.split(sep) with a one-character separator: empty pieces are
kept, and the empty string splits into one empty piece. -/
def jsSplitChar (sep : Char) : List Char → List (List Char)
  | [] => [[]]
  | a :: rest =>
    match jsSplitChar sep rest with
    | [] => [[]]
    | w :: ws => if a == sep then [] :: w :: ws else (a :: w) :: ws

/-- Whitespace characters recognised by the regular-expression class used in
the sources. -/
def jsIsWs (c : Char) : Bool := c == ' ' || c == '\t' || c == '\n' || c == '\r'

/-- Right-fold worker for jsSplitWs: the split pieces of the suffix, paired
with whether the suffix starts with a whitespace character (so that a maximal
whitespace run produces a single separator). -/
def jsSplitWsCore : List Char → List (List Char) × Bool
  | [] => ([[]], false)
  | a :: rest =>
    let t := jsSplitWsCore rest
    if jsIsWs a then
      if t.2 then (t.1, true) else ([] :: t.1, true)
    else
      ((match t.1 with
        | [] => [[a]]
        | p :: ps => (a :: p) :: ps), false)

/-- JavaScript str.split on a whitespace-run pattern: separators are maximal
nonempty whitespace runs; leading and trailing runs contribute empty pieces. -/
def jsSplitWs (s : List Char) : List (List Char) := (jsSplitWsCore s).1

/-- needleLeads n h holds when n is an initial segment of h. -/
def needleLeads : List Char → List Char → Bool
  | [], _ => true
  | _ :: _, [] => false
  | a :: as, b :: bs => a == b && needleLeads as bs

/-- strHas needle hay models JavaScript hay.includes(needle). -/
def strHas (needle hay : List Char) : Bool :=
  match hay with
  | [] => needle.isEmpty
  | _ :: t => needleLeads needle hay || strHas needle t

/-- Underscore-to-space normalisation of one character (the global regex
replace in the sources). -/
def underscoreToSpace (c : Char) : Char := if c == '_' then ' ' else c

/-- calculateSemanticSimilarity (store, part_002 lines 306-323): the fraction
of normalised canonical words that substring-match, in either direction, some
whitespace-split word of the label.  Only the label is consulted; there is no
synonym expansion and no edit-distance signal. -/
def calculateSemanticSimilarity (canonical label : String) : ℚ :=
  let canonicalWords := jsSplitChar ' ' ((jsLower canonical.data).map underscoreToSpace)
  let labelWords := jsSplitWs (jsLower label.data)
  let matchCount := canonicalWords.countP (fun cw =>
    labelWords.any (fun lw => strHas cw lw || strHas lw cw))
  (matchCount : ℚ) / (canonicalWords.length : ℚ)

/-- Row extension of the edit-distance table: given the distance function f
of a string xs against arbitrary suffix arguments, produce the distance
function of x :: xs.  The three arguments of the minimum are the insertion,
deletion and substitution entries of the dynamic-programming matrix the
source levenshteinDistance fills. -/
def levRowFn (x : Char) (f : List Char → Nat) : List Char → Nat
  | [] => f [] + 1
  | y :: ys =>
    min (levRowFn x f ys + 1)
      (min (f (y :: ys) + 1) (f ys + (if x == y then 0 else 1)))

/-- Distance function of str1 against arbitrary second arguments, built one
table row at a time. -/
def levFn : List Char → (List Char → Nat)
  | [] => fun ys => ys.length
  | x :: xs => levRowFn x (levFn xs)

/-- levenshteinDistance (content page, part_007): the source fills the
standard dynamic-programming matrix whose entry (j, i) is the edit distance of
the first i characters of str1 and the first j characters of str2 and answers
the entry (len str2, len str1); levFn builds the same table by rows. -/
def levenshteinDistance (str1 str2 : List Char) : Nat := levFn str1 str2

/-- calculateFuzzySimilarity (content page, part_007): Levenshtein distance of
the longer against the shorter string, rescaled to a 0..1 similarity. -/
def calculateFuzzySimilarity (str1 str2 : List Char) : ℚ :=
  let longer := if str2.length < str1.length then str1 else str2
  let shorter := if str2.length < str1.length then str2 else str1
  if longer.length = 0 then 1
  else ((longer.length : ℚ) - (levenshteinDistance longer shorter : ℚ)) / (longer.length : ℚ)

/-- Normalised metadata of one interactive element, as produced by the page
scanner (the shared DOMInput / FormInput shape; fields not consulted by the
matching and filling code are omitted). -/
structure DOMInput where
  selector : String
  type : String := "text"
  label : String := ""
  placeholder : Option String := none
  name : Option String := none
  id : Option String := none
  ariaLabel : Option String := none
  xpath : String := ""
  deriving DecidableEq

/-- Space-join of a list of strings as character list. -/
def joinSpace : List String → List Char
  | [] => []
  | [s] => s.data
  | s :: rest => s.data ++ ' ' :: joinSpace rest

/-- Comparison-text parts of calculateSimilarity (part_007): label,
placeholder, ariaLabel, name and id in that order; the filter(Boolean) of the
source drops both missing and empty parts. -/
def comparisonTextParts (d : DOMInput) : List String :=
  ([some d.label, d.placeholder, d.ariaLabel, d.name, d.id].filterMap id).filter
    (fun s => !(s == ""))

/-- The joined, lower-cased comparison text of calculateSimilarity. -/
def comparisonText (d : DOMInput) : List Char :=
  jsLower (joinSpace (comparisonTextParts d))

/-- calculateSimilarity (content page, part_007 lines 491-523): fuzzy
similarity of the lower-cased canonical field name against the joined
comparison text.  No token containment and no synonym table take part. -/
def calculateSimilarity (fieldName : String) (domField : DOMInput) : ℚ :=
  calculateFuzzySimilarity (jsLower fieldName.data) (comparisonText domField)

/-- First-match key lookup in an association list, modelling JavaScript object
property access (object keys are unique, so the first match is the match). -/
def lookupKey {α : Type} (k : String) : List (String × α) → Option α
  | [] => none
  | (k₂, v) :: rest => if k₂ == k then some v else lookupKey k rest

/-- FIELD_SYNONYMS (shared/src/constants.ts): the static synonym table. -/
def FIELD_SYNONYMS : List (String × List String) :=
  [ ("first_name", ["fname", "firstname", "given_name", "forename", "first"]),
    ("last_name", ["lname", "lastname", "surname", "family_name", "last"]),
    ("middle_name", ["mname", "middlename", "middle_initial", "mi"]),
    ("full_name", ["name", "fullname", "complete_name", "legal_name"]),
    ("date_of_birth", ["dob", "birthdate", "birth_date", "birthday"]),
    ("ssn", ["social_security", "social_security_number", "social"]),
    ("ein", ["employer_identification", "tax_id", "federal_tax_id"]),
    ("email", ["email_address", "e_mail", "electronic_mail"]),
    ("phone", ["telephone", "phone_number", "tel"]),
    ("mobile_phone", ["cell", "cellular", "mobile", "cell_phone"]),
    ("work_phone", ["business_phone", "office_phone", "work_tel"]),
    ("address_line1", ["address", "street", "street_address", "addr1"]),
    ("address_line2", ["address2", "apt", "apartment", "suite", "unit", "addr2"]),
    ("city", ["town", "municipality"]),
    ("state", ["province", "region", "st"]),
    ("zip_code", ["zip", "postal_code", "postcode"]),
    ("country", ["nation"]),
    ("employer", ["company", "organization", "workplace"]),
    ("job_title", ["title", "position", "role", "occupation"]),
    ("annual_income", ["income", "salary", "yearly_income", "gross_income"]),
    ("bank_account", ["account_number", "account_num", "acct_num"]),
    ("routing_number", ["routing", "routing_num", "aba_number"]),
    ("signature", ["sig", "sign"]),
    ("date", ["current_date", "today"]) ]

/-- Containment test of one candidate token against the comparison-text
tokens, in either substring direction (the relation named by §4.4). -/
def specTokenMatches (compTokens : List (List Char)) (t : List Char) : Bool :=
  compTokens.any (fun w => strHas t w || strHas w t)

/-- Claimed semantic score, assembled from the words of specification §4.4
(spec side of a refinement comparison; the code side is
calculateSemanticSimilarity and calculateSimilarity): the maximum of the
synonym-aware token-containment fraction and the edit-distance similarity,
both over the space-joined comparison text. -/
def specClaimedScore (canonical : String) (d : DOMInput) : ℚ :=
  let normCanonical := (jsLower canonical.data).map underscoreToSpace
  let tokens := jsSplitChar ' ' normCanonical
  let variants := (lookupKey canonical FIELD_SYNONYMS).getD []
  let compTokens := jsSplitWs (comparisonText d)
  let matched := tokens.countP (fun t =>
    specTokenMatches compTokens t ||
      variants.any (fun v => specTokenMatches compTokens (jsLower v.data)))
  let containment := (matched : ℚ) / (tokens.length : ℚ)
  let editSim :=
    1 - (levenshteinDistance normCanonical (comparisonText d) : ℚ) /
      (max normCanonical.length (comparisonText d).length : ℚ)
  max containment editSim

/-- Edit-distance similarity in the exact form stated by §4.4, applied to the
lower-cased field name and the comparison text. -/
def specEditSimilarity (fieldName : String) (d : DOMInput) : ℚ :=
  let a := jsLower fieldName.data
  let b := comparisonText d
  1 - (levenshteinDistance a b : ℚ) / (max a.length b.length : ℚ)

/-- Confidence band floor HIGH (shared/src/constants.ts). -/
def CONFIDENCE_HIGH : ℚ := 92 / 100

/-- Confidence band floor MEDIUM (shared/src/constants.ts). -/
def CONFIDENCE_MEDIUM : ℚ := 80 / 100

/-- One extracted value candidate (shared Field types). -/
structure Candidate where
  value : String
  confidence : ℚ
  bbox : ℚ × ℚ × ℚ × ℚ := (0, 0, 0, 0)
  sourceText : Option String := none
  page : Int := 1
  deriving DecidableEq

/-- One validation-rule outcome attached to a field. -/
structure Validation where
  rule : String
  passed : Bool
  message : Option String := none
  deriving DecidableEq

/-- One canonical field with its candidates and optional chosen value. -/
structure Field where
  canonical : String
  candidates : List Candidate
  chosen : Option Candidate := none
  validations : List Validation := []
  deriving DecidableEq

/-- Site-scoped override profile; only the selector table is consulted by the
decision policy, the remaining properties are carried for completeness. -/
structure MappingProfile where
  version : Int := 1
  site : String := ""
  path : Option String := none
  selectors : List (String × List String)
  deriving DecidableEq

/-- Match methods of a FillMapping. -/
inductive FillMethod where
  | profile_match
  | exact_match
  | semantic_match
  | fuzzy_match
  deriving DecidableEq

/-- One planned fill, produced per fill attempt. -/
structure FillMapping where
  fieldCanonical : String
  domSelector : String
  confidence : ℚ
  method : FillMethod
  deriving DecidableEq

/-- Ready filter of generateMappings: a chosen candidate with confidence at
least HIGH. -/
def isReady (f : Field) : Bool :=
  match f.chosen with
  | some c => decide (CONFIDENCE_HIGH ≤ c.confidence)
  | none => false

/-- Profile-selector walk of generateMappings: the selectors are tried in
listed order and the first that equals the selector of some scanned input
resolves to that input. -/
def firstResolve : List String → List DOMInput → Option DOMInput
  | [], _ => none
  | s :: rest, inputs =>
    match inputs.find? (fun i => i.selector == s) with
    | some inp => some inp
    | none => firstResolve rest inputs

/-- Profile branch of generateMappings: look up the selector list recorded for
the canonical name and resolve it against the scanned inputs. -/
def profileMatch (profile : Option MappingProfile) (inputs : List DOMInput)
    (canonical : String) : Option DOMInput :=
  match profile with
  | none => none
  | some p =>
    match lookupKey canonical p.selectors with
    | none => none
    | some ss => firstResolve ss inputs

/-- Semantic branch of generateMappings: the source scores every input, sorts
stably by descending score and takes index 0; equivalently, the earliest input
attaining the maximal score. -/
def bestSemanticMatch (canonical : String) : List DOMInput → Option (DOMInput × ℚ)
  | [] => none
  | i :: rest =>
    let s := calculateSemanticSimilarity canonical i.label
    match bestSemanticMatch canonical rest with
    | none => some (i, s)
    | some (j, t) => if s < t then some (j, t) else some (i, s)

/-- Per-field body of the generateMappings loop (part_002 lines 196-244). -/
def mappingForField (profile : Option MappingProfile) (inputs : List DOMInput)
    (field : Field) : Option FillMapping :=
  match field.chosen with
  | none => none
  | some chosen =>
    match profileMatch profile inputs field.canonical with
    | some inp =>
      some { fieldCanonical := field.canonical, domSelector := inp.selector,
             confidence := min chosen.confidence (95 / 100),
             method := FillMethod.profile_match }
    | none =>
      match bestSemanticMatch field.canonical inputs with
      | none => none
      | some (inp, score) =>
        if CONFIDENCE_MEDIUM ≤ score then
          some { fieldCanonical := field.canonical, domSelector := inp.selector,
                 confidence := min chosen.confidence score,
                 method := if CONFIDENCE_HIGH ≤ score then FillMethod.exact_match
                           else FillMethod.semantic_match }
        else none

/-- generateMappings (store, part_002 lines 182-247): filter the ready fields
and process each in iteration order; a null parse result or an empty input
list yields the empty plan. -/
def generateMappings (fields : List Field) (inputs : List DOMInput)
    (profile : Option MappingProfile) : List FillMapping :=
  if inputs.isEmpty then []
  else (fields.filter isReady).filterMap (mappingForField profile inputs)

/-- Per-field body of updateFieldValue (part_002 lines 250-273). -/
def updateOneField (canonical value : String) (field : Field) : Field :=
  match field.chosen with
  | some c =>
    if field.canonical == canonical then
      { field with chosen := some { c with value := value } }
    else field
  | none => field

/-- updateFieldValue (store, part_002): map over the fields, replacing only
the chosen value of the named field. -/
def updateFieldValue (fields : List Field) (canonical value : String) : List Field :=
  fields.map (updateOneField canonical value)

/-- Untyped JSON value, the shape a parsed profile import has before
validation. -/
inductive Json where
  | null
  | bool (b : Bool)
  | num (q : ℚ)
  | str (s : String)
  | arr (elems : List Json)
  | obj (entries : List (String × Json))

/-- Property access on a parsed value: defined on objects, undefined
elsewhere. -/
def Json.getField : Json → String → Option Json
  | Json.obj entries, k => lookupKey k entries
  | _, _ => none

/-- Typeof-number test of the validator. -/
def jsTypeofIsNumber : Option Json → Bool
  | some (Json.num _) => true
  | _ => false

/-- Typeof-string test of the validator. -/
def jsTypeofIsString : Option Json → Bool
  | some (Json.str _) => true
  | _ => false

/-- Typeof-object test of the validator; in JavaScript, null and arrays also
have typeof object. -/
def jsTypeofIsObject : Option Json → Bool
  | some (Json.obj _) => true
  | some (Json.arr _) => true
  | some Json.null => true
  | _ => false

/-- isValidMappingProfile (background, part_000 lines 240-250): a truthy
object whose version, created and updated are numbers, site a string and
selectors an object. -/
def isValidMappingProfile (profile : Json) : Bool :=
  (match profile with
   | Json.obj _ => true
   | Json.arr _ => true
   | _ => false)
  && jsTypeofIsNumber (Json.getField profile "version")
  && jsTypeofIsString (Json.getField profile "site")
  && jsTypeofIsObject (Json.getField profile "selectors")
  && jsTypeofIsNumber (Json.getField profile "created")
  && jsTypeofIsNumber (Json.getField profile "updated")

/-- exportMappingProfiles (background, part_000): the stored table serialized
with JSON.stringify; the stringify/parse round trip on plain data is modelled
as the identity on the Json-level table. -/
def exportMappingProfiles (stored : List (String × Json)) : List (String × Json) :=
  stored

/-- The validation loop of importMappingProfiles: the key of the first entry
failing isValidMappingProfile, if any. -/
def firstInvalidKey : List (String × Json) → Option String
  | [] => none
  | (k, p) :: rest => if isValidMappingProfile p then firstInvalidKey rest else some k

/-- importMappingProfiles (background, part_000 lines 213-235) as a state
transformer on the stored table: every entry is validated before the single
storage write, so the first invalid entry rejects the whole import, names its
key, and leaves the stored table unchanged; a fully valid table replaces the
stored table. -/
def importMappingProfiles (stored tbl : List (String × Json)) :
    List (String × Json) × Option String :=
  match firstInvalidKey tbl with
  | some k =>
    (stored, some ("Failed to import profiles: Invalid profile format for " ++ k))
  | none => (tbl, none)

/-- One fill outcome (shared FillResult shape). -/
structure FillResult where
  field : String
  selector : String
  success : Bool
  confidence : ℚ
  source : Option Candidate := none
  error : Option String := none
  deriving DecidableEq

/-- One option of a select element. -/
structure SelectOption where
  value : String
  text : String
  deriving DecidableEq

/-- One live element of the host document, keyed by the selector that locates
it; value and checked are its mutable state. -/
structure DomElement where
  selector : String
  tagName : String := "input"
  typeAttr : Option String := none
  name : Option String := none
  value : String := ""
  checked : Bool := false
  options : List SelectOption := []
  dataLabel : Option String := none
  deriving DecidableEq

/-- The host document as scanned at execution time. -/
abbrev Document := List DomElement

/-- document.querySelector: the element the selector locates, if present. -/
def querySelector (doc : Document) (sel : String) : Option DomElement :=
  doc.find? (fun e => e.selector == sel)

/-- Truthy-value coercion of the FormFiller checkbox branch (part_013): the
first two comparisons are on the lower-cased value, the third on the raw
value. -/
def formFillerCheckboxTruthy (value : String) : Bool :=
  jsLower value.data == "true".data || jsLower value.data == "yes".data || value == "1"

/-- Dispatch type of the FormFiller switch: the type attribute when present
and nonempty, else the tag name. -/
def elementFillType (el : DomElement) : String :=
  match el.typeAttr with
  | some t => if t == "" then el.tagName else t
  | none => el.tagName

/-- Select-option matching of FormFiller.fillField: exact value, exact text,
or case-insensitive text, first match wins. -/
def formFillerSelectOption (el : DomElement) (value : String) : Option SelectOption :=
  el.options.find? (fun opt =>
    opt.value == value || opt.text == value ||
    jsLower opt.text.data == jsLower value.data)

/-- Value injection of FormFiller.fillField once the element resolved: the
type-aware switch of part_013 (the data-formpilot marker attributes it also
sets are presentational and not part of the model). -/
def FormFiller.applyFill (doc : Document) (el : DomElement) (value : String) : Document :=
  let ty := elementFillType el
  if ty == "checkbox" then
    doc.map (fun e =>
      if e.selector == el.selector then { e with checked := formFillerCheckboxTruthy value }
      else e)
  else if ty == "radio" then
    doc.map (fun e =>
      if e.tagName == "input" && e.name == el.name &&
          (e.value == value || e.dataLabel == some value)
      then { e with checked := true } else e)
  else if ty == "select" then
    let newVal :=
      match formFillerSelectOption el value with
      | some opt => opt.value
      | none => value
    doc.map (fun e => if e.selector == el.selector then { e with value := newVal } else e)
  else
    doc.map (fun e => if e.selector == el.selector then { e with value := value } else e)

/-- FormFiller.fillField (part_013 lines 329-421): resolve the selector
against the current document; a missing element yields a failed FillResult
with error "Element not found", otherwise the value is injected and a
successful FillResult returned.  The try/catch wrapper means no path throws;
in this total model the catch branch is unreachable. -/
def FormFiller.fillField (doc : Document) (selector value fieldName : String)
    (source : Candidate) : FillResult × Document :=
  match querySelector doc selector with
  | none =>
    ({ field := fieldName, selector := selector, success := false,
       confidence := source.confidence, source := some source,
       error := some "Element not found" }, doc)
  | some el =>
    ({ field := fieldName, selector := selector, success := true,
       confidence := source.confidence, source := some source },
     FormFiller.applyFill doc el value)

/-- Map.get on the fieldMap FormFiller.fill builds with forEach/set: the last
entry with the canonical name wins. -/
def fieldMapGet (fields : List Field) (canonical : String) : Option Field :=
  match fields with
  | [] => none
  | f :: rest =>
    match fieldMapGet rest canonical with
    | some g => some g
    | none => if f.canonical == canonical then some f else none

/-- Candidate selection of FormFiller.fill: the chosen candidate, else the
first listed candidate. -/
def chosenOrFirstCandidate (f : Field) : Option Candidate :=
  match f.chosen with
  | some c => some c
  | none => f.candidates.head?

/-- Mapped-entry loop of FormFiller.fill (part_013 lines 279-302), threading
the document through successive fills.  The below-threshold error message of
the source interpolates the two numbers; the model keeps its fixed prose. -/
def FormFiller.fillLoop (doc : Document) (fields : List Field) (threshold : ℚ) :
    List (String × String) → List FillResult × Document
  | [] => ([], doc)
  | (canonical, selector) :: rest =>
    match fieldMapGet fields canonical with
    | none => FormFiller.fillLoop doc fields threshold rest
    | some fld =>
      match chosenOrFirstCandidate fld with
      | none => FormFiller.fillLoop doc fields threshold rest
      | some cand =>
        if cand.confidence < threshold then
          let r : FillResult :=
            { field := canonical, selector := selector, success := false,
              confidence := cand.confidence, source := some cand,
              error := some "Confidence below threshold" }
          let tail := FormFiller.fillLoop doc fields threshold rest
          (r :: tail.1, tail.2)
        else
          let fr := FormFiller.fillField doc selector cand.value canonical cand
          let tail := FormFiller.fillLoop fr.2 fields threshold rest
          (fr.1 :: tail.1, tail.2)

/-- findMatchingInput of FormFiller (part_013 lines 426-458): exact match on
label, lower-cased name or lower-cased id, else the first input whose
label-placeholder-ariaLabel text contains every keyword. -/
def FormFiller.findMatchingInput (inputs : List DOMInput) (fieldName : String) :
    Option DOMInput :=
  let normalized := (jsLower fieldName.data).map underscoreToSpace
  let exact := inputs.find? (fun input =>
    jsLower input.label.data == normalized ||
    (input.name.map (fun n => String.mk (jsLower n.data))) == some fieldName ||
    (input.id.map (fun i => String.mk (jsLower i.data))) == some fieldName)
  match exact with
  | some m => some m
  | none =>
    let fieldKeywords := jsSplitChar ' ' normalized
    inputs.find? (fun input =>
      let text := jsLower input.label.data ++ ' ' ::
        jsLower ((input.placeholder.getD "").data) ++ ' ' ::
        jsLower ((input.ariaLabel.getD "").data)
      fieldKeywords.all (fun kw => strHas kw text))

/-- Unmapped filter of FormFiller.fill with JavaScript truthiness: a missing
key, or an empty-string selector, counts as unmapped. -/
def isUnmapped (mapping : List (String × String)) (f : Field) : Bool :=
  match lookupKey f.canonical mapping with
  | none => true
  | some s => s == ""

/-- Auto-match loop of FormFiller.fill over the unmapped fields (part_013
lines 305-321). -/
def FormFiller.unmappedLoop (doc : Document) (inputs : List DOMInput) (threshold : ℚ) :
    List Field → List FillResult × Document
  | [] => ([], doc)
  | f :: rest =>
    match chosenOrFirstCandidate f with
    | none => FormFiller.unmappedLoop doc inputs threshold rest
    | some cand =>
      if cand.confidence < threshold then
        FormFiller.unmappedLoop doc inputs threshold rest
      else
        match FormFiller.findMatchingInput inputs f.canonical with
        | some matched =>
          let fr := FormFiller.fillField doc matched.selector cand.value f.canonical cand
          let tail := FormFiller.unmappedLoop fr.2 inputs threshold rest
          (fr.1 :: tail.1, tail.2)
        | none => FormFiller.unmappedLoop doc inputs threshold rest

/-- FormFiller.fill (part_013 lines 264-324): fill every mapped entry, then
auto-match the unmapped fields; the default autoFillThreshold of the source is
0.92. -/
def FormFiller.fill (doc : Document) (inputs : List DOMInput) (fields : List Field)
    (mapping : List (String × String)) (autoFillThreshold : ℚ) :
    List FillResult × Document :=
  let mapped := FormFiller.fillLoop doc fields autoFillThreshold mapping
  let unmapped := fields.filter (isUnmapped mapping)
  let tail := FormFiller.unmappedLoop mapped.2 inputs autoFillThreshold unmapped
  (mapped.1 ++ tail.1, tail.2)

/-- One per-selector outcome recorded by ContentScript.fillFields. -/
structure ContentFillOutcome where
  selector : String
  success : Bool
  deriving DecidableEq

/-- value := e.value update of one element located by its selector. -/
def updateValue (doc : Document) (sel : String) (v : String) : Document :=
  doc.map (fun e => if e.selector == sel then { e with value := v } else e)

/-- checked := b update of one element located by its selector. -/
def setChecked (doc : Document) (sel : String) (b : Bool) : Document :=
  doc.map (fun e => if e.selector == sel then { e with checked := b } else e)

/-- Whitespace trim of both ends, as String.prototype.trim. -/
def strTrim (s : List Char) : List Char :=
  ((s.dropWhile jsIsWs).reverse.dropWhile jsIsWs).reverse

/-- HTMLInputElement.type of the content script dispatch: the type attribute,
defaulting to text. -/
def contentElementType (el : DomElement) : String :=
  match el.typeAttr with
  | some t => t
  | none => "text"

/-- Select-option matching of the content script (content-script.ts lines
422-449): exact value, then trimmed case-insensitive text, then substring
containment in either direction. -/
def ContentScript.selectOptionMatch (opts : List SelectOption) (value : String) :
    Option SelectOption :=
  match opts.find? (fun opt => opt.value == value) with
  | some o => some o
  | none =>
    match opts.find? (fun opt => jsLower (strTrim opt.text.data) == jsLower value.data) with
    | some o => some o
    | none =>
      opts.find? (fun opt =>
        strHas (jsLower value.data) (jsLower (strTrim opt.text.data)) ||
        strHas (jsLower (strTrim opt.text.data)) (jsLower value.data))

/-- Truthy tokens of the content script checkbox branch. -/
def CONTENT_CHECKBOX_TRUTHY : List String := ["true", "yes", "1", "on", "checked", "✓", "☑"]

/-- fillSingleField dispatch of the content script (content-script.ts lines
361-466): select, checkbox, radio, else text; returns the mutated document
and whether the injection succeeded. -/
def ContentScript.fillSingleField (doc : Document) (el : DomElement) (value : String) :
    Document × Bool :=
  if el.tagName == "select" then
    match ContentScript.selectOptionMatch el.options value with
    | some opt => (updateValue doc el.selector opt.value, true)
    | none => (doc, false)
  else if contentElementType el == "checkbox" then
    (setChecked doc el.selector
      (CONTENT_CHECKBOX_TRUTHY.contains (String.mk (jsLower value.data))), true)
  else if contentElementType el == "radio" then
    if el.value == value || jsLower el.value.data == jsLower value.data then
      (setChecked doc el.selector true, true)
    else (doc, false)
  else
    (updateValue doc el.selector value, true)

/-- ContentScript.fillFields (content-script.ts lines 102-128): the external
getFieldValue channel is the valueOf argument.  A mapping whose selector does
not resolve is skipped with only a console warning: no outcome is recorded for
it; a falsy (missing or empty) value records a failed outcome. -/
def ContentScript.fillFields (doc : Document) (valueOf : String → Option String) :
    List FillMapping → List ContentFillOutcome × Document
  | [] => ([], doc)
  | m :: rest =>
    match querySelector doc m.domSelector with
    | none => ContentScript.fillFields doc valueOf rest
    | some el =>
      let step : Document × Bool :=
        match valueOf m.fieldCanonical with
        | none => (doc, false)
        | some v => if v == "" then (doc, false) else ContentScript.fillSingleField doc el v
      let tail := ContentScript.fillFields step.1 valueOf rest
      ({ selector := m.domSelector, success := step.2 } :: tail.1, tail.2)

/- Concrete values used by the counterexamples and witnesses below. -/

/-- A scanned text input labelled "first name". -/
def exInputFirstName : DOMInput := { selector := "#fn", label := "first name" }

/-- A scanned text input labelled "First Name" (the §8 first-name walkthrough). -/
def exInputFirstNameCap : DOMInput := { selector := "#first_name", label := "First Name" }

/-- A scanned input labelled Contact whose name attribute is email. -/
def exInputContact : DOMInput :=
  { selector := "#contact", label := "Contact", name := some "email" }

/-- A high-confidence extracted candidate. -/
def exCandidate95 : Candidate := { value := "John", confidence := 95 / 100 }

/-- A review-band extracted candidate (confidence 0.85, between MEDIUM and
HIGH). -/
def exCandidate85 : Candidate := { value := "John", confidence := 85 / 100 }

/-- Three ready fields: two distinct canonical names that both match the same
input perfectly, plus a repeated canonical name. -/
def exC1Fields : List Field :=
  [ { canonical := "name", candidates := [exCandidate95], chosen := some exCandidate95 },
    { canonical := "first_name", candidates := [exCandidate95], chosen := some exCandidate95 },
    { canonical := "name", candidates := [exCandidate95], chosen := some exCandidate95 } ]

/-- Two ready fields with distinct canonical names. -/
def exC1DistinctFields : List Field :=
  [ { canonical := "name", candidates := [exCandidate95], chosen := some exCandidate95 },
    { canonical := "first_name", candidates := [exCandidate95], chosen := some exCandidate95 } ]

/-- A field whose chosen confidence 0.85 sits in the review band. -/
def exField085 : Field :=
  { canonical := "first_name", candidates := [exCandidate85], chosen := some exCandidate85 }

/-- The §8 walkthrough field: first_name chosen at confidence 0.95. -/
def exFieldFirstName : Field :=
  { canonical := "first_name", candidates := [exCandidate95], chosen := some exCandidate95 }

/-- The §8 profile for example.com mapping email to two selectors. -/
def exProfile : MappingProfile :=
  { site := "example.com", selectors := [("email", ["#email", "input[name=email]"])] }

/-- The scanned input resolved by the second profile selector. -/
def exInputEmailByName : DOMInput :=
  { selector := "input[name=email]", type := "email", label := "Email" }

/-- The email field chosen at confidence 0.95. -/
def exFieldEmail : Field :=
  { canonical := "email", candidates := [exCandidate95], chosen := some exCandidate95 }

/-- A planned mapping whose selector no longer resolves. -/
def exMappingMissing : FillMapping :=
  { fieldCanonical := "first_name", domSelector := "#gone", confidence := 95 / 100,
    method := FillMethod.exact_match }

/-- A parsed profile entry passing every check of isValidMappingProfile. -/
def exGoodProfileJson : Json :=
  Json.obj [("version", Json.num 1), ("site", Json.str "example.com"),
            ("selectors", Json.obj [("email", Json.arr [Json.str "#email"])]),
            ("created", Json.num 1700000000), ("updated", Json.num 1700000001)]

/-- A one-entry valid profile table. -/
def exGoodTable : List (String × Json) := [("https://example.com/", exGoodProfileJson)]

/-- A table whose second entry fails validation. -/
def exBadTable : List (String × Json) :=
  [("https://example.com/", exGoodProfileJson), ("https://bad.example/", Json.str "oops")]

/-- A field with candidates but no user-approved chosen value. -/
def exUnapprovedField : Field :=
  { canonical := "first_name", candidates := [exCandidate95] }

/-- A one-element host document. -/
def exDocFirst : Document := [{ selector := "#first" }]

section Theorems

attribute [local semireducible] Rat.mul Rat.add Rat.sub Rat.inv

/-- The distance of any string against the empty string is its length. -/
theorem levenshteinDistance_nil_right (xs : List Char) :
    levenshteinDistance xs [] = xs.length := by
  induction xs with
  | nil => rfl
  | cons x xs ih =>
    have h : levenshteinDistance (x :: xs) [] = levenshteinDistance xs [] + 1 := rfl
    rw [h, ih, List.length_cons]

/-- The row-built table satisfies the textbook edit-distance recurrence. -/
theorem levenshteinDistance_cons_cons (x y : Char) (xs ys : List Char) :
    levenshteinDistance (x :: xs) (y :: ys) =
      min (levenshteinDistance (x :: xs) ys + 1)
        (min (levenshteinDistance xs (y :: ys) + 1)
          (levenshteinDistance xs ys + (if x == y then 0 else 1))) := rfl

/-- Levenshtein distance is symmetric in its two strings. -/
theorem levenshteinDistance_comm (xs ys : List Char) :
    levenshteinDistance xs ys = levenshteinDistance ys xs := by
  generalize hn : xs.length + ys.length = n
  induction n using Nat.strong_induction_on generalizing xs ys with
  | _ n ih =>
    cases xs with
    | nil =>
      show levenshteinDistance [] ys = _
      rw [levenshteinDistance_nil_right]
      rfl
    | cons x xs =>
      cases ys with
      | nil => rw [levenshteinDistance_nil_right]; rfl
      | cons y ys =>
        rw [levenshteinDistance_cons_cons, levenshteinDistance_cons_cons]
        rw [ih ((x :: xs).length + ys.length)
              (by simp only [List.length_cons] at hn ⊢; omega) (x :: xs) ys rfl]
        rw [ih (xs.length + (y :: ys).length)
              (by simp only [List.length_cons] at hn ⊢; omega) xs (y :: ys) rfl]
        rw [ih (xs.length + ys.length)
              (by simp only [List.length_cons] at hn ⊢; omega) xs ys rfl]
        have hxy : (x == y) = (y == x) := by
          by_cases h : x = y
          · subst h; rfl
          · rw [beq_eq_false_iff_ne.mpr h, beq_eq_false_iff_ne.mpr (fun hh => h hh.symm)]
        rw [hxy]
        omega

/-- The fuzzy similarity of the source equals the edit-distance similarity
formula of §4.4 (division by zero in ℚ makes both sides 1 when both strings
are empty). -/
theorem calculateFuzzySimilarity_spec (a b : List Char) :
    calculateFuzzySimilarity a b =
      1 - (levenshteinDistance a b : ℚ) / (max a.length b.length : ℚ) := by
  unfold calculateFuzzySimilarity
  by_cases hlt : b.length < a.length
  · simp only [if_pos hlt]
    have h0 : a.length ≠ 0 := by omega
    rw [if_neg h0]
    have hmax : ((a.length : ℚ) ⊔ (b.length : ℚ)) = (a.length : ℚ) :=
      max_eq_left (by exact_mod_cast Nat.le_of_lt hlt)
    rw [hmax]
    have hA : ((a.length : ℚ)) ≠ 0 := Nat.cast_ne_zero.mpr h0
    field_simp
  · simp only [if_neg hlt]
    by_cases hb0 : b.length = 0
    · have ha0 : a.length = 0 := by omega
      rw [List.length_eq_zero] at ha0 hb0
      subst ha0; subst hb0
      norm_num [levenshteinDistance]
    · rw [if_neg hb0, levenshteinDistance_comm b a]
      have hmax : ((a.length : ℚ) ⊔ (b.length : ℚ)) = (b.length : ℚ) :=
        max_eq_right (by exact_mod_cast Nat.le_of_not_lt hlt)
      rw [hmax]
      have hB : ((b.length : ℚ)) ≠ 0 := Nat.cast_ne_zero.mpr hb0
      field_simp

/-- C2 (counterexample): the spec formula of §4.4 scores the canonical name
email against an input labelled Contact with name attribute email as 1 (the
token email occurs in the joined comparison text), but the decision policy's
score calculateSemanticSimilarity, which reads only the label, is 0, and the
content-script score calculateSimilarity is the pure edit-distance value 5/13;
neither equals the claimed maximum of the two signals. -/
theorem semantic_score_formula_cex :
    specClaimedScore "email" exInputContact = 1 ∧
    calculateSemanticSimilarity "email" exInputContact.label = 0 ∧
    calculateSimilarity "email" exInputContact = 5 / 13 := by
  decide

/-- C2 (amended): the decision policy's similarity is the token-containment
fraction over the label alone with no synonym expansion, and, separately, the
content-script similarity calculateSimilarity equals exactly the edit-distance
similarity 1 - levenshtein(a,b)/max(len a, len b) between the lower-cased
canonical name and the space-joined comparison text; no maximum of the two
signals is computed anywhere. -/
theorem calculateSimilarity_eq_specEditSimilarity (fieldName : String) (d : DOMInput) :
    calculateSimilarity fieldName d = specEditSimilarity fieldName d := by
  unfold calculateSimilarity specEditSimilarity
  exact calculateFuzzySimilarity_spec _ _

/-- C9: updateFieldValue replaces only the chosen value of the named field,
keeping its confidence, source fields, candidates and validations, and leaves
every other field (and a named field without a chosen candidate) unchanged. -/
theorem updateFieldValue_frame (fields : List Field) (canonical value : String) :
    List.Forall₂ (fun f f₂ =>
      ((f.canonical = canonical → f.chosen = none) → f₂ = f) ∧
      ∀ c, f.canonical = canonical → f.chosen = some c →
        f₂ = { f with chosen := some { c with value := value } })
      fields (updateFieldValue fields canonical value) := by
  unfold updateFieldValue
  induction fields with
  | nil => exact List.Forall₂.nil
  | cons f rest ih =>
    rw [List.map_cons]
    refine List.Forall₂.cons ⟨?_, ?_⟩ ih
    · intro h
      by_cases hcan : f.canonical = canonical
      · have hchn : f.chosen = none := h hcan
        simp only [updateOneField, hchn]
      · have hb : (f.canonical == canonical) = false := beq_eq_false_iff_ne.mpr hcan
        cases hch : f.chosen with
        | none => simp only [updateOneField, hch]
        | some c => simp only [updateOneField, hch, hb, Bool.false_eq_true, if_false]
    · intro c hcan hch
      have hb : (f.canonical == canonical) = true := beq_iff_eq.mpr hcan
      simp only [updateOneField, hch, hb, if_true]

/-- The key of the first entry failing validation, located by index. -/
theorem firstInvalidKey_of_invalid_mem (tbl : List (String × Json)) (k : String) (p : Json)
    (hmem : (k, p) ∈ tbl) (hbad : isValidMappingProfile p = false) :
    ∃ i, i < tbl.length ∧
      firstInvalidKey tbl = some (tbl.getD i ("", Json.null)).1 ∧
      isValidMappingProfile (tbl.getD i ("", Json.null)).2 = false ∧
      ∀ j, j < i → isValidMappingProfile (tbl.getD j ("", Json.null)).2 = true := by
  induction tbl with
  | nil => simp at hmem
  | cons hd rest ih =>
    obtain ⟨hk, hpv⟩ := hd
    by_cases hv : isValidMappingProfile hpv = true
    · have hmem₂ : (k, p) ∈ rest := by
        rcases List.mem_cons.mp hmem with he | hm
        · exfalso
          have hpe : p = hpv := congrArg Prod.snd he
          rw [hpe, hv] at hbad
          exact Bool.noConfusion hbad
        · exact hm
      obtain ⟨i, hi, hkey, hinv, hearl⟩ := ih hmem₂
      refine ⟨i + 1, by simp only [List.length_cons]; omega, ?_, ?_, ?_⟩
      · simp only [firstInvalidKey, hv, if_true, List.getD_cons_succ]
        exact hkey
      · rw [List.getD_cons_succ]
        exact hinv
      · intro j hj
        cases j with
        | zero =>
          rw [List.getD_cons_zero]
          exact hv
        | succ j =>
          rw [List.getD_cons_succ]
          exact hearl j (by omega)
    · have hvf : isValidMappingProfile hpv = false := by
        cases hq : isValidMappingProfile hpv
        · rfl
        · exact absurd hq hv
      refine ⟨0, by simp, ?_, ?_, ?_⟩
      · simp only [firstInvalidKey, hvf, Bool.false_eq_true, if_false, List.getD_cons_zero]
      · rw [List.getD_cons_zero]
        exact hvf
      · intro j hj
        omega

/-- C7: an invalid entry anywhere in the imported table makes the import
reject the whole batch with an error naming the first offending key, leaving
the stored profile table unchanged. -/
theorem importMappingProfiles_rejects_first_invalid (stored tbl : List (String × Json))
    (k : String) (p : Json) (hmem : (k, p) ∈ tbl)
    (hbad : isValidMappingProfile p = false) :
    ∃ i, i < tbl.length ∧
      isValidMappingProfile (tbl.getD i ("", Json.null)).2 = false ∧
      (∀ j, j < i → isValidMappingProfile (tbl.getD j ("", Json.null)).2 = true) ∧
      importMappingProfiles stored tbl =
        (stored, some ("Failed to import profiles: Invalid profile format for " ++
          (tbl.getD i ("", Json.null)).1)) := by
  obtain ⟨i, hi, hkey, hinv, hearl⟩ := firstInvalidKey_of_invalid_mem tbl k p hmem hbad
  refine ⟨i, hi, hinv, hearl, ?_⟩
  unfold importMappingProfiles
  rw [hkey]

/-- C7 (witness): a two-entry table whose second entry is a bare string is
rejected, the stored table survives, and the error names the second key. -/
theorem importMappingProfiles_rejects_first_invalid_witness :
    (("https://bad.example/", Json.str "oops") ∈ exBadTable) ∧
    isValidMappingProfile (Json.str "oops") = false ∧
    ∃ i, i < exBadTable.length ∧
      isValidMappingProfile (exBadTable.getD i ("", Json.null)).2 = false ∧
      (∀ j, j < i → isValidMappingProfile (exBadTable.getD j ("", Json.null)).2 = true) ∧
      importMappingProfiles exGoodTable exBadTable =
        (exGoodTable, some ("Failed to import profiles: Invalid profile format for " ++
          (exBadTable.getD i ("", Json.null)).1)) :=
  ⟨by simp [exBadTable], rfl,
    importMappingProfiles_rejects_first_invalid exGoodTable exBadTable
      "https://bad.example/" (Json.str "oops") (by simp [exBadTable]) rfl⟩

/-- A fully valid table passes the validation loop. -/
theorem firstInvalidKey_eq_none (tbl : List (String × Json))
    (hvalid : ∀ kp ∈ tbl, isValidMappingProfile kp.2 = true) :
    firstInvalidKey tbl = none := by
  revert hvalid
  induction tbl with
  | nil => intro _; rfl
  | cons hd rest ih =>
    intro hvalid
    obtain ⟨hk, hpv⟩ := hd
    have h1 := hvalid (hk, hpv) (List.mem_cons_self _ _)
    simp only [firstInvalidKey, h1, if_true]
    exact ih (fun kp h => hvalid kp (List.mem_cons_of_mem _ h))

/-- C8: importing the export of a table whose entries all pass validation
restores exactly that table, with no error. -/
theorem import_export_round_trip (stored tbl : List (String × Json))
    (hvalid : ∀ kp ∈ tbl, isValidMappingProfile kp.2 = true) :
    importMappingProfiles stored (exportMappingProfiles tbl) = (tbl, none) := by
  unfold importMappingProfiles exportMappingProfiles
  rw [firstInvalidKey_eq_none tbl hvalid]

/-- C8 (witness): the round trip on a concrete one-entry valid table. -/
theorem import_export_round_trip_witness :
    (∀ kp ∈ exGoodTable, isValidMappingProfile kp.2 = true) ∧
    importMappingProfiles [] (exportMappingProfiles exGoodTable) = (exGoodTable, none) := by
  have h : ∀ kp ∈ exGoodTable, isValidMappingProfile kp.2 = true := by
    intro kp hkp
    rcases List.mem_singleton.mp hkp with rfl
    rfl
  exact ⟨h, import_export_round_trip [] exGoodTable h⟩

/-- A produced mapping always carries the canonical name of its field. -/
theorem mappingForField_canonical {profile : Option MappingProfile}
    {inputs : List DOMInput} {fld : Field} {m : FillMapping}
    (h : mappingForField profile inputs fld = some m) :
    m.fieldCanonical = fld.canonical := by
  unfold mappingForField at h
  split at h
  · exact absurd h (by simp)
  · split at h
    · injection h with h2
      rw [← h2]
    · split at h
      · exact absurd h (by simp)
      · split at h
        · injection h with h2
          rw [← h2]
        · exact absurd h (by simp)

/-- On a field list with pairwise distinct canonical names, equal canonical
names force equal fields. -/
theorem canonical_nodup_inj {fields : List Field}
    (hnd : (fields.map Field.canonical).Nodup) {f g : Field}
    (hf : f ∈ fields) (hg : g ∈ fields) (h : f.canonical = g.canonical) : f = g :=
  List.inj_on_of_nodup_map hnd hf hg h

/-- Distinct canonical names survive the per-field mapping step. -/
theorem filterMap_fieldCanonical_nodup (profile : Option MappingProfile)
    (inputs : List DOMInput) :
    ∀ l : List Field, (l.map Field.canonical).Nodup →
      ((l.filterMap (mappingForField profile inputs)).map FillMapping.fieldCanonical).Nodup := by
  intro l
  induction l with
  | nil => intro _; simp
  | cons f rest ih =>
    intro hnd
    rw [List.map_cons, List.nodup_cons] at hnd
    obtain ⟨hnotin, hnd₂⟩ := hnd
    rw [List.filterMap_cons]
    cases hf : mappingForField profile inputs f with
    | none => exact ih hnd₂
    | some m =>
      rw [List.map_cons, List.nodup_cons]
      refine ⟨?_, ih hnd₂⟩
      intro hmem
      rcases List.mem_map.mp hmem with ⟨m₂, hm₂, he⟩
      rcases List.mem_filterMap.mp hm₂ with ⟨g, hg, hfg⟩
      apply hnotin
      rw [List.mem_map]
      exact ⟨g, hg,
        (mappingForField_canonical hfg).symm.trans (he.trans (mappingForField_canonical hf))⟩

/-- C1 (counterexample): with fields name, first_name and a repeated name, all
ready at confidence 0.95, and a single input labelled first name, the plan
assigns the same domSelector to all three mappings and repeats the
fieldCanonical name — the policy tracks no assignments. -/
theorem generateMappings_double_assignment_cex :
    ¬ ((generateMappings exC1Fields [exInputFirstName] none).map
        FillMapping.domSelector).Nodup ∧
    ¬ ((generateMappings exC1Fields [exInputFirstName] none).map
        FillMapping.fieldCanonical).Nodup := by
  decide

/-- C1 (amended): the plan holds at most one mapping per field, so when the
fields carry pairwise distinct canonical names no two mappings share a
fieldCanonical; two mappings may still share a domSelector. -/
theorem generateMappings_fieldCanonical_nodup (fields : List Field)
    (inputs : List DOMInput) (profile : Option MappingProfile)
    (hnd : (fields.map Field.canonical).Nodup) :
    ((generateMappings fields inputs profile).map FillMapping.fieldCanonical).Nodup := by
  unfold generateMappings
  cases hemp : inputs.isEmpty
  · rw [if_neg (by simp [hemp])]
    refine filterMap_fieldCanonical_nodup profile inputs _ ?_
    exact List.Nodup.sublist ((List.filter_sublist fields).map Field.canonical) hnd
  · rw [if_pos (by simp [hemp])]
    simp

/-- C1 (amended, witness): two distinct-canonical fields give a plan with
distinct fieldCanonical names. -/
theorem generateMappings_fieldCanonical_nodup_witness :
    ((exC1DistinctFields.map Field.canonical).Nodup) ∧
    ((generateMappings exC1DistinctFields [exInputFirstName] none).map
        FillMapping.fieldCanonical).Nodup :=
  ⟨by decide,
    generateMappings_fieldCanonical_nodup exC1DistinctFields [exInputFirstName] none
      (by decide)⟩

/-- C3 (counterexample): a field with chosen confidence 0.85 — at least MEDIUM
— and a perfect label match on the page is still excluded from the plan: the
code gates fields at HIGH (0.92), not MEDIUM. -/
theorem confidence_gate_medium_cex :
    CONFIDENCE_MEDIUM ≤ (85 : ℚ) / 100 ∧
    exField085.chosen = some exCandidate85 ∧
    calculateSemanticSimilarity "first_name" "first name" = 1 ∧
    generateMappings [exField085] [exInputFirstName] none = [] := by
  decide

/-- C3 (amended): with no applicable profile entry, a field receives a mapping
exactly when its chosen confidence is at least HIGH (0.92) and its best
semantic score is at least MEDIUM (0.80); in particular a field with
confidence 0.70 or 0.85 is excluded even with a perfect label match. -/
theorem generateMappings_confidence_gate (fields : List Field) (inputs : List DOMInput)
    (profile : Option MappingProfile) (fld : Field) (c : Candidate)
    (hnd : (fields.map Field.canonical).Nodup)
    (hmem : fld ∈ fields) (hch : fld.chosen = some c)
    (hprof : profileMatch profile inputs fld.canonical = none)
    (hne : inputs ≠ []) :
    (∃ m ∈ generateMappings fields inputs profile, m.fieldCanonical = fld.canonical) ↔
      CONFIDENCE_HIGH ≤ c.confidence ∧
        ∃ inp s, bestSemanticMatch fld.canonical inputs = some (inp, s) ∧
          CONFIDENCE_MEDIUM ≤ s := by
  have hemp : inputs.isEmpty = false := by
    cases inputs with
    | nil => exact absurd rfl hne
    | cons a l => rfl
  constructor
  · rintro ⟨m, hm, hcan⟩
    unfold generateMappings at hm
    rw [hemp] at hm
    simp only [Bool.false_eq_true, if_false] at hm
    rcases List.mem_filterMap.mp hm with ⟨g, hg, hfg⟩
    rcases List.mem_filter.mp hg with ⟨hgmem, hgready⟩
    have hgc : g.canonical = fld.canonical := by
      rw [← mappingForField_canonical hfg, hcan]
    have hge : g = fld := canonical_nodup_inj hnd hgmem hmem hgc
    subst hge
    have hhigh : CONFIDENCE_HIGH ≤ c.confidence := by
      unfold isReady at hgready
      rw [hch] at hgready
      exact of_decide_eq_true hgready
    refine ⟨hhigh, ?_⟩
    simp only [mappingForField, hch, hprof] at hfg
    cases hbs : bestSemanticMatch g.canonical inputs with
    | none =>
      rw [hbs] at hfg
      simp at hfg
    | some pr =>
      obtain ⟨inp, s⟩ := pr
      by_cases hs : CONFIDENCE_MEDIUM ≤ s
      · exact ⟨inp, s, rfl, hs⟩
      · rw [hbs] at hfg
        simp [hs] at hfg
  · rintro ⟨hhigh, inp, s, hbs, hs⟩
    refine ⟨{ fieldCanonical := fld.canonical, domSelector := inp.selector,
              confidence := min c.confidence s,
              method := if CONFIDENCE_HIGH ≤ s then FillMethod.exact_match
                        else FillMethod.semantic_match },
            ?_, rfl⟩
    unfold generateMappings
    rw [hemp]
    simp only [Bool.false_eq_true, if_false]
    apply List.mem_filterMap.mpr
    refine ⟨fld, List.mem_filter.mpr ⟨hmem, ?_⟩, ?_⟩
    · unfold isReady
      rw [hch]
      exact decide_eq_true hhigh
    · simp only [mappingForField, hch, hprof, hbs]
      rw [if_pos hs]

/-- C3 (amended, witness): the first_name field at confidence 0.95 against a
page with a perfectly matching label receives a mapping, in agreement with the
gate equivalence. -/
theorem generateMappings_confidence_gate_witness :
    (([exFieldFirstName].map Field.canonical).Nodup) ∧
    exFieldFirstName ∈ [exFieldFirstName] ∧
    exFieldFirstName.chosen = some exCandidate95 ∧
    profileMatch none [exInputFirstNameCap] exFieldFirstName.canonical = none ∧
    (([exInputFirstNameCap] : List DOMInput) ≠ []) ∧
    ((∃ m ∈ generateMappings [exFieldFirstName] [exInputFirstNameCap] none,
        m.fieldCanonical = exFieldFirstName.canonical) ↔
      CONFIDENCE_HIGH ≤ exCandidate95.confidence ∧
        ∃ inp s, bestSemanticMatch exFieldFirstName.canonical [exInputFirstNameCap] =
            some (inp, s) ∧ CONFIDENCE_MEDIUM ≤ s) :=
  ⟨by decide, by decide, rfl, rfl, by decide,
    generateMappings_confidence_gate [exFieldFirstName] [exInputFirstNameCap] none
      exFieldFirstName exCandidate95 (by decide) (by decide) rfl rfl (by decide)⟩

/-- The profile walk resolves the first listed selector that matches a scanned
input, characterised by index. -/
theorem firstResolve_of_firstIndex (ss : List String) (inputs : List DOMInput)
    (k : Nat) (sel : String) (inp : DOMInput)
    (hk : k < ss.length) (hsel : ss.getD k "" = sel)
    (hfound : inputs.find? (fun i => i.selector == sel) = some inp)
    (hearlier : ∀ j, j < k → inputs.find? (fun i => i.selector == ss.getD j "") = none) :
    firstResolve ss inputs = some inp := by
  revert hk hsel hearlier
  induction ss generalizing k with
  | nil => intro hk _ _; simp at hk
  | cons s rest ih =>
    intro hk hsel hearlier
    cases k with
    | zero =>
      rw [List.getD_cons_zero] at hsel
      subst hsel
      unfold firstResolve
      rw [hfound]
    | succ k =>
      have h0 := hearlier 0 (Nat.succ_pos k)
      rw [List.getD_cons_zero] at h0
      unfold firstResolve
      rw [h0]
      apply ih k
      · rw [List.length_cons] at hk; omega
      · rw [List.getD_cons_succ] at hsel; exact hsel
      · intro j hj
        have h := hearlier (j + 1) (by omega)
        rw [List.getD_cons_succ] at h
        exact h

/-- C4: when the profile lists selectors for a ready field's canonical name,
the first selector (in listed order) that matches a scanned input wins, and
the resulting mapping has method profile_match and confidence
min(chosen, 0.95), independently of any semantic score. -/
theorem profile_match_priority (fields : List Field) (inputs : List DOMInput)
    (p : MappingProfile) (fld : Field) (c : Candidate) (ss : List String)
    (k : Nat) (sel : String) (inp : DOMInput)
    (hmem : fld ∈ fields) (hch : fld.chosen = some c)
    (hhigh : CONFIDENCE_HIGH ≤ c.confidence)
    (hsel : lookupKey fld.canonical p.selectors = some ss)
    (hk : k < ss.length) (hgk : ss.getD k "" = sel)
    (hfound : inputs.find? (fun i => i.selector == sel) = some inp)
    (hearlier : ∀ j, j < k → inputs.find? (fun i => i.selector == ss.getD j "") = none) :
    ∃ m ∈ generateMappings fields inputs (some p),
      m.fieldCanonical = fld.canonical ∧ m.domSelector = sel ∧
      m.method = FillMethod.profile_match ∧
      m.confidence = min c.confidence (95 / 100) := by
  have hfr : firstResolve ss inputs = some inp :=
    firstResolve_of_firstIndex ss inputs k sel inp hk hgk hfound hearlier
  have hpm : profileMatch (some p) inputs fld.canonical = some inp := by
    simp only [profileMatch, hsel, hfr]
  have hemp : inputs.isEmpty = false := by
    cases inputs with
    | nil => simp at hfound
    | cons a l => rfl
  have hselinp : inp.selector = sel := by
    have hfs := List.find?_some hfound
    simp only [beq_iff_eq] at hfs
    exact hfs
  refine ⟨{ fieldCanonical := fld.canonical, domSelector := inp.selector,
            confidence := min c.confidence (95 / 100),
            method := FillMethod.profile_match },
          ?_, rfl, hselinp, rfl, rfl⟩
  unfold generateMappings
  rw [hemp]
  simp only [Bool.false_eq_true, if_false]
  apply List.mem_filterMap.mpr
  refine ⟨fld, List.mem_filter.mpr ⟨hmem, ?_⟩, ?_⟩
  · unfold isReady
    rw [hch]
    exact decide_eq_true hhigh
  · simp only [mappingForField, hch, hpm]

/-- C4 (witness): the §8 walkthrough — the profile for example.com lists
selectors #email then input[name=email]; only the second resolves, and the
plan maps email to it with method profile_match at min(0.95, 0.95). -/
theorem profile_match_priority_witness :
    exFieldEmail ∈ [exFieldEmail] ∧
    lookupKey exFieldEmail.canonical exProfile.selectors =
      some ["#email", "input[name=email]"] ∧
    [exInputEmailByName].find? (fun i => i.selector == "input[name=email]") =
      some exInputEmailByName ∧
    (∀ j, j < 1 →
      [exInputEmailByName].find?
        (fun i => i.selector == (["#email", "input[name=email]"].getD j "")) = none) ∧
    ∃ m ∈ generateMappings [exFieldEmail] [exInputEmailByName] (some exProfile),
      m.fieldCanonical = exFieldEmail.canonical ∧ m.domSelector = "input[name=email]" ∧
      m.method = FillMethod.profile_match ∧
      m.confidence = min exCandidate95.confidence (95 / 100) :=
  ⟨by decide, by decide, by decide, by decide,
    profile_match_priority [exFieldEmail] [exInputEmailByName] exProfile exFieldEmail
      exCandidate95 ["#email", "input[name=email]"] 1 "input[name=email]"
      exInputEmailByName (by decide) rfl (by decide) (by decide) (by decide) (by decide)
      (by decide) (by decide)⟩

/-- C5: a semantic mapping carries confidence min(chosen, score) and method
exact_match when the score reaches HIGH (0.92), semantic_match otherwise. -/
theorem semantic_match_confidence_method (fields : List Field) (inputs : List DOMInput)
    (profile : Option MappingProfile) (fld : Field) (c : Candidate)
    (inp : DOMInput) (s : ℚ)
    (hmem : fld ∈ fields) (hch : fld.chosen = some c)
    (hhigh : CONFIDENCE_HIGH ≤ c.confidence)
    (hprof : profileMatch profile inputs fld.canonical = none)
    (hbest : bestSemanticMatch fld.canonical inputs = some (inp, s))
    (hs : CONFIDENCE_MEDIUM ≤ s) :
    ∃ m ∈ generateMappings fields inputs profile,
      m.fieldCanonical = fld.canonical ∧ m.domSelector = inp.selector ∧
      m.confidence = min c.confidence s ∧
      m.method = if CONFIDENCE_HIGH ≤ s then FillMethod.exact_match
                 else FillMethod.semantic_match := by
  have hemp : inputs.isEmpty = false := by
    cases inputs with
    | nil => simp [bestSemanticMatch] at hbest
    | cons a l => rfl
  refine ⟨{ fieldCanonical := fld.canonical, domSelector := inp.selector,
            confidence := min c.confidence s,
            method := if CONFIDENCE_HIGH ≤ s then FillMethod.exact_match
                      else FillMethod.semantic_match },
          ?_, rfl, rfl, rfl, rfl⟩
  unfold generateMappings
  rw [hemp]
  simp only [Bool.false_eq_true, if_false]
  apply List.mem_filterMap.mpr
  refine ⟨fld, List.mem_filter.mpr ⟨hmem, ?_⟩, ?_⟩
  · unfold isReady
    rw [hch]
    exact decide_eq_true hhigh
  · simp only [mappingForField, hch, hprof, hbest]
    rw [if_pos hs]

/-- C5 (witness): the §8 walkthrough — first_name at chosen confidence 0.95
against an input labelled First Name scores 1.0 by token containment, giving
method exact_match and mapping confidence min(0.95, 1) = 0.95. -/
theorem semantic_match_confidence_method_witness :
    exFieldFirstName ∈ [exFieldFirstName] ∧
    CONFIDENCE_HIGH ≤ exCandidate95.confidence ∧
    bestSemanticMatch exFieldFirstName.canonical [exInputFirstNameCap] =
      some (exInputFirstNameCap, 1) ∧
    CONFIDENCE_MEDIUM ≤ (1 : ℚ) ∧
    ∃ m ∈ generateMappings [exFieldFirstName] [exInputFirstNameCap] none,
      m.fieldCanonical = exFieldFirstName.canonical ∧
      m.domSelector = exInputFirstNameCap.selector ∧
      m.confidence = min exCandidate95.confidence 1 ∧
      m.method = if CONFIDENCE_HIGH ≤ (1 : ℚ) then FillMethod.exact_match
                 else FillMethod.semantic_match :=
  ⟨by decide, by decide, by decide, by decide,
    semantic_match_confidence_method [exFieldFirstName] [exInputFirstNameCap] none
      exFieldFirstName exCandidate95 exInputFirstNameCap 1 (by decide) rfl (by decide)
      rfl (by decide) (by decide)⟩

/-- C6 (counterexample): ContentScript.fillFields records no outcome at all
for a mapping whose selector fails to resolve — against the claim that one
FillResult with error "element not found" is returned per attempted fill —
and FormFiller.fillField names the error with a capital E. -/
theorem fill_executor_not_found_cex :
    (ContentScript.fillFields [] (fun _ => some "John") [exMappingMissing]).1 = [] ∧
    (FormFiller.fillField [] "#gone" "John" "first_name" exCandidate95).1.error =
      some "Element not found" ∧
    some "Element not found" ≠ some "element not found" := by
  refine ⟨rfl, rfl, by decide⟩

/-- C6 (amended): a FormFiller fill whose selector fails to resolve returns a
FillResult with success false and error "Element not found" and leaves the
document untouched, while ContentScript.fillFields skips such a mapping
without recording any outcome; neither executor throws. -/
theorem fillField_element_not_found (doc : Document) (selector value fieldName : String)
    (source : Candidate) (m : FillMapping) (valueOf : String → Option String)
    (rest : List FillMapping)
    (h : querySelector doc selector = none)
    (h₂ : querySelector doc m.domSelector = none) :
    (FormFiller.fillField doc selector value fieldName source).1 =
      { field := fieldName, selector := selector, success := false,
        confidence := source.confidence, source := some source,
        error := some "Element not found" } ∧
    (FormFiller.fillField doc selector value fieldName source).2 = doc ∧
    ContentScript.fillFields doc valueOf (m :: rest) =
      ContentScript.fillFields doc valueOf rest := by
  refine ⟨?_, ?_, ?_⟩
  · simp only [FormFiller.fillField, h]
  · simp only [FormFiller.fillField, h]
  · simp only [ContentScript.fillFields, h₂]

/-- C6 (amended, witness): the not-found behaviour at a concrete empty
document. -/
theorem fillField_element_not_found_witness :
    querySelector [] "#gone" = none ∧
    querySelector [] exMappingMissing.domSelector = none ∧
    (FormFiller.fillField [] "#gone" "John" "first_name" exCandidate95).1 =
      { field := "first_name", selector := "#gone", success := false,
        confidence := exCandidate95.confidence, source := some exCandidate95,
        error := some "Element not found" } ∧
    (FormFiller.fillField [] "#gone" "John" "first_name" exCandidate95).2 = [] ∧
    ContentScript.fillFields [] (fun _ => some "John") [exMappingMissing] =
      ContentScript.fillFields [] (fun _ => some "John") [] := by
  refine ⟨rfl, rfl, ?_⟩
  have h := fillField_element_not_found [] "#gone" "John" "first_name" exCandidate95
    exMappingMissing (fun _ => some "John") [] rfl rfl
  exact h

/-- The per-fill FillResult of FormFiller.fillField always carries the field
name, selector, source candidate and its confidence, found or not. -/
theorem fillField_result_fields (doc : Document) (selector value fieldName : String)
    (source : Candidate) :
    (FormFiller.fillField doc selector value fieldName source).1.field = fieldName ∧
    (FormFiller.fillField doc selector value fieldName source).1.selector = selector ∧
    (FormFiller.fillField doc selector value fieldName source).1.source = some source ∧
    (FormFiller.fillField doc selector value fieldName source).1.confidence =
      source.confidence := by
  unfold FormFiller.fillField
  cases querySelector doc selector <;> simp

/-- Every mapped entry whose field resolves to a candidate at or above the
threshold contributes a fill attempt for that candidate, whatever document
state earlier fills produced. -/
theorem fillLoop_mem_of_entry (fields : List Field) (threshold : ℚ)
    (canonical selector : String) (fld : Field) (c₀ : Candidate)
    (hlookup : fieldMapGet fields canonical = some fld)
    (hcf : chosenOrFirstCandidate fld = some c₀)
    (hconf : threshold ≤ c₀.confidence) :
    ∀ (ms : List (String × String)) (d : Document), (canonical, selector) ∈ ms →
      ∃ r ∈ (FormFiller.fillLoop d fields threshold ms).1,
        r.field = canonical ∧ r.selector = selector ∧ r.source = some c₀ ∧
        r.confidence = c₀.confidence := by
  intro ms
  induction ms with
  | nil => intro d h; simp at h
  | cons e rest ih =>
    intro d h
    rcases List.mem_cons.mp h with heq | hm
    · subst heq
      simp only [FormFiller.fillLoop, hlookup, hcf]
      rw [if_neg (not_lt.mpr hconf)]
      refine ⟨(FormFiller.fillField d selector c₀.value canonical c₀).1,
              List.mem_cons_self _ _, ?_⟩
      exact fillField_result_fields d selector c₀.value canonical c₀
    · obtain ⟨ec, es⟩ := e
      simp only [FormFiller.fillLoop]
      split
      · exact ih _ hm
      · split
        · exact ih _ hm
        · split
          · obtain ⟨r, hr, hp⟩ := ih d hm
            exact ⟨r, List.mem_cons_of_mem _ hr, hp⟩
          · obtain ⟨r, hr, hp⟩ := ih _ hm
            exact ⟨r, List.mem_cons_of_mem _ hr, hp⟩

/-- C10: a mapped canonical name whose field has no chosen candidate but a
nonempty candidates list is auto-filled from candidates[0] whenever that
candidate's confidence meets the auto-fill threshold — unapproved fields can
be filled. -/
theorem formFiller_fill_unapproved_fallback (doc : Document) (inputs : List DOMInput)
    (fields : List Field) (mapping : List (String × String)) (threshold : ℚ)
    (canonical selector : String) (fld : Field) (c₀ : Candidate) (cs : List Candidate)
    (hentry : (canonical, selector) ∈ mapping)
    (hlookup : fieldMapGet fields canonical = some fld)
    (hnone : fld.chosen = none)
    (hcands : fld.candidates = c₀ :: cs)
    (hconf : threshold ≤ c₀.confidence) :
    ∃ r ∈ (FormFiller.fill doc inputs fields mapping threshold).1,
      r.field = canonical ∧ r.selector = selector ∧ r.source = some c₀ ∧
      r.confidence = c₀.confidence := by
  have hcf : chosenOrFirstCandidate fld = some c₀ := by
    unfold chosenOrFirstCandidate
    rw [hnone, hcands]
    rfl
  obtain ⟨r, hr, hp⟩ :=
    fillLoop_mem_of_entry fields threshold canonical selector fld c₀ hlookup hcf hconf
      mapping doc hentry
  exact ⟨r, List.mem_append_left _ hr, hp⟩

/-- C10 (witness): a first_name field with a single 0.95 candidate and no
chosen value, mapped to a present element, is filled from that candidate at
the default 0.92 threshold. -/
theorem formFiller_fill_unapproved_fallback_witness :
    (("first_name", "#first") ∈ [("first_name", "#first")]) ∧
    fieldMapGet [exUnapprovedField] "first_name" = some exUnapprovedField ∧
    exUnapprovedField.chosen = none ∧
    exUnapprovedField.candidates = [exCandidate95] ∧
    ((92 : ℚ) / 100 ≤ exCandidate95.confidence) ∧
    ∃ r ∈ (FormFiller.fill exDocFirst [] [exUnapprovedField]
        [("first_name", "#first")] (92 / 100)).1,
      r.field = "first_name" ∧ r.selector = "#first" ∧ r.source = some exCandidate95 ∧
      r.confidence = exCandidate95.confidence :=
  ⟨by decide, by decide, rfl, rfl, by decide,
    formFiller_fill_unapproved_fallback exDocFirst [] [exUnapprovedField]
      [("first_name", "#first")] (92 / 100) "first_name" "#first" exUnapprovedField
      exCandidate95 [] (by decide) (by decide) rfl rfl (by decide)⟩

end Theorems

end FormPilot
